import Mathlib

/-!
Verification development for the Universal Academic Workflow node-graph engine.

The definitions below are a shallow embedding of the TypeScript source:
the App component's graph state and handlers (`getUpstreamContext`,
`handleConnect`, `handleDeleteNode`, `handleUpdateSection`,
`handleRevertVersion`, the tiered `saveState`) and the Gemini service's
retry wrapper (`withRetry`, `isRetryableError`).

Modelling conventions:
- JavaScript strings are Lean `String`s; JS truthiness of a string is
  `s ≠ ""` (the only falsy string is the empty one).
- JS objects keyed by node id (`executionStates`, `upstreamSources`) are
  association lists `List (String × _)`; lookup takes the first match and
  update replaces the first matching key in place.
- `Array.prototype.sort` mutates its receiver; `getUpstreamContext`
  therefore threads the execution-state map through its edge loop and
  returns the (possibly re-sorted) map alongside the effective config.
- The resolver additionally carries two instrumentation counters, `steps`
  (one per incoming-edge iteration) and `extraLookups` (one per execution
  of the critique→synthesis back-edge lookup), used to state the
  single-pass/termination property; they do not influence any computed
  value.
- UI-only metadata (canvas positions beyond the record field, grounding
  chunks, message durations) that no modelled code path reads is omitted
  from the records.
-/

set_option maxHeartbeats 1000000
set_option maxRecDepth 4000

namespace UAW

/-- Character-list version of "starts with". -/
def listStartsWith : List Char → List Char → Bool
  | [], _ => true
  | _ :: _, [] => false
  | a :: as, b :: bs => a == b && listStartsWith as bs

/-- Character-list version of substring containment. -/
def listContains (pat : List Char) : List Char → Bool
  | [] => listStartsWith pat []
  | c :: rest => listStartsWith pat (c :: rest) || listContains pat rest

/-- JS `String.prototype.includes`. -/
def strContains (s pat : String) : Bool :=
  listContains pat.data s.data

/-- JS `label.replace(/\s+/g, '_')`: each maximal run of (ASCII)
whitespace becomes a single underscore. -/
def collapseWs (s : String) : String :=
  (s.data.foldl
    (fun (acc : String × Bool) c =>
      if c = ' ' ∨ c = '\t' ∨ c = '\n' ∨ c = '\r' then
        if acc.2 then acc else (acc.1.push '_', true)
      else (acc.1.push c, false))
    ("", false)).1

/-- JS `Array.prototype.join('\n\n')`. -/
def joinNN : List String → String
  | [] => ""
  | [s] => s
  | s :: rest => s ++ "\n\n" ++ joinNN rest

/-- `TaskType` enum from `types.ts` (values as used across the source). -/
inductive TaskType where
  | PROJECT_DEFINITION
  | OUTLINE_GENERATION
  | CHAPTER_GENERATION
  | CHAPTER_RECONSTRUCTION
  | BOOK_TO_CHAPTER_TRANSMUTATION
  | CHAPTER_INFUSION
  | ACADEMIC_NOTE_GENERATION
  | CONTEXT_PROCESSING
  | CITATION_VERIFICATION
  | RED_TEAM_REVIEW
  | FINAL_SYNTHESIS
  deriving DecidableEq

/-- The string value of a `TaskType` member (the TS enum is
string-valued, so `TaskType[t]` and string coercion both yield this). -/
def taskTypeName : TaskType → String
  | .PROJECT_DEFINITION => "PROJECT_DEFINITION"
  | .OUTLINE_GENERATION => "OUTLINE_GENERATION"
  | .CHAPTER_GENERATION => "CHAPTER_GENERATION"
  | .CHAPTER_RECONSTRUCTION => "CHAPTER_RECONSTRUCTION"
  | .BOOK_TO_CHAPTER_TRANSMUTATION => "BOOK_TO_CHAPTER_TRANSMUTATION"
  | .CHAPTER_INFUSION => "CHAPTER_INFUSION"
  | .ACADEMIC_NOTE_GENERATION => "ACADEMIC_NOTE_GENERATION"
  | .CONTEXT_PROCESSING => "CONTEXT_PROCESSING"
  | .CITATION_VERIFICATION => "CITATION_VERIFICATION"
  | .RED_TEAM_REVIEW => "RED_TEAM_REVIEW"
  | .FINAL_SYNTHESIS => "FINAL_SYNTHESIS"

/-- `FileData` from `types.ts`. -/
structure FileData where
  name : String
  content : String
  deriving DecidableEq

/-- `Config` from `types.ts`: the flat superset record of node settings.
Enum-or-empty-string fields (`Task_Type`, `Input_Type`,
`Research_Requirement`, `Analysis_Level`) are modelled by their string
values, since the modelled code paths only copy them around. -/
structure Config where
  Task_Type : String
  Input_Type : String
  Research_Requirement : String
  Analysis_Level : String
  Target_Word_Count : String
  Output_Language : String
  Chapter_Title : String
  Chapter_Subtitle : String
  Additional_Instructions : String
  Source_A_File : String
  Source_B_File : String
  Source_B_Files : List FileData
  Source_B_Content : String
  Book_File : String
  Core_Bibliography : String
  Core_Bibliography_Files : List FileData
  Complementary_Files : List FileData
  Chapter_Outline : String
  Draft_Chapter_Text : String
  Red_Team_Review_Text : String
  Final_Draft_For_Review : String
  deriving DecidableEq

/-- `getInitialConfig` from the App component. -/
def getInitialConfig (type : TaskType) : Config where
  Task_Type := taskTypeName type
  Input_Type :=
    if type = .PROJECT_DEFINITION then "MANUAL_ENTRY"
    else if type = .CONTEXT_PROCESSING then "FILES_ONLY" else ""
  Research_Requirement := ""
  Analysis_Level := "FOCUSED_BALANCE"
  Target_Word_Count := ""
  Output_Language := "English"
  Chapter_Title := ""
  Chapter_Subtitle := ""
  Additional_Instructions := ""
  Source_A_File := ""
  Source_B_File := ""
  Source_B_Files := []
  Source_B_Content := ""
  Book_File := ""
  Core_Bibliography := ""
  Core_Bibliography_Files := []
  Complementary_Files := []
  Chapter_Outline := ""
  Draft_Chapter_Text := ""
  Red_Team_Review_Text := ""
  Final_Draft_For_Review := ""

/-- Provenance tag of a `SectionVersion`. -/
inductive VersionSource where
  | aiGenerated
  | userEdited
  | aiRevised
  | userAdded
  deriving DecidableEq

/-- `SectionVersion` from `types.ts` (`createdAt` as an integer timestamp). -/
structure SectionVersion where
  id : String
  content : String
  createdAt : Nat
  source : VersionSource
  deriving DecidableEq

/-- `ChapterSection` from `types.ts`. -/
structure ChapterSection where
  id : String
  order : Int
  title : String
  versions : List SectionVersion
  activeVersionId : String
  sourceMessageId : Option String
  deriving DecidableEq

/-- Message role. -/
inductive Role where
  | user
  | assistant
  | system
  deriving DecidableEq

/-- `Message` from `types.ts` (fields read by the modelled code). -/
structure Message where
  id : String
  role : Role
  content : String
  isHidden : Bool
  deriving DecidableEq

/-- `WorkflowState` from `types.ts`. -/
inductive WorkflowState where
  | CONFIGURING
  | PRE_PROCESSING
  | PROCESSING
  | AWAITING_USER_ACTION
  | COMPLETED
  | ERROR
  deriving DecidableEq

/-- `TokenUsage` from `types.ts`. -/
structure TokenUsage where
  promptTokens : Nat
  responseTokens : Nat
  totalTokens : Nat
  deriving DecidableEq

/-- `NodeExecutionState` from `types.ts`. -/
structure NodeExecutionState where
  messages : List Message
  workflowState : WorkflowState
  documentSections : List ChapterSection
  elapsedTime : Nat
  logs : List String
  tokenUsage : TokenUsage
  deriving DecidableEq

/-- `getInitialExecutionState` from the App component. -/
def getInitialExecutionState : NodeExecutionState where
  messages := []
  workflowState := .CONFIGURING
  documentSections := []
  elapsedTime := 0
  logs := []
  tokenUsage := ⟨0, 0, 0⟩

/-- Canvas position. -/
structure Position where
  x : Int
  y : Int
  deriving DecidableEq

/-- `WorkflowNode` from `types.ts`; `label?: string` is modelled as a
`String` where the empty string plays the role of `undefined` (both are
falsy wherever the source tests `sourceNode.label`). `status` is kept as
its string value. -/
structure WorkflowNode where
  id : String
  type : TaskType
  position : Position
  config : Config
  status : String
  label : String
  deriving DecidableEq

/-- `WorkflowEdge` from `types.ts`. -/
structure WorkflowEdge where
  id : String
  source : String
  target : String
  deriving DecidableEq

/-- The App component's graph state: `nodes`, `edges` and the
`executionStates` record keyed by node id. -/
structure AppState where
  nodes : List WorkflowNode
  edges : List WorkflowEdge
  executionStates : List (String × NodeExecutionState)
  deriving DecidableEq

/-- JS object read `executionStates[key]` (first matching key). -/
def lookupState (m : List (String × NodeExecutionState)) (k : String) :
    Option NodeExecutionState :=
  match m with
  | [] => none
  | p :: rest => if p.1 = k then some p.2 else lookupState rest k

/-- JS object write at an existing key: replace the first entry whose key
matches, leave everything else in place. -/
def setStateEntry (m : List (String × NodeExecutionState)) (k : String)
    (v : NodeExecutionState) : List (String × NodeExecutionState) :=
  match m with
  | [] => []
  | p :: rest => if p.1 = k then (k, v) :: rest else p :: setStateEntry rest k v

/-- JS object write `upstreamSources[key] = value`. -/
def setKV (m : List (String × String)) (k v : String) : List (String × String) :=
  match m with
  | [] => [(k, v)]
  | p :: rest => if p.1 = k then (k, v) :: rest else p :: setKV rest k v

end UAW

namespace UAW

/-- Content of a section's active version:
`s.versions.find(v => v.id === s.activeVersionId)?.content || ''`. -/
def activeContent (s : ChapterSection) : String :=
  match s.versions.find? (fun v => v.id == s.activeVersionId) with
  | some v => v.content
  | none => ""

/-- Stable insertion by `order` (a later element is placed after every
earlier element whose order is `<` its own and before ties). -/
def insertSec (s : ChapterSection) : List ChapterSection → List ChapterSection
  | [] => [s]
  | t :: ts => if t.order < s.order then t :: insertSec s ts else s :: t :: ts

/-- `.sort((a, b) => a.order - b.order)`: a stable sort of the sections by
`order` (ES2019 `Array.prototype.sort` is stable). -/
def sortSections : List ChapterSection → List ChapterSection
  | [] => []
  | s :: ss => insertSec s (sortSections ss)

/-- `sourceNode.label || sourceNode.type` (the enum member is its own
string value). -/
def labelOrType (n : WorkflowNode) : String :=
  if n.label = "" then taskTypeName n.type else n.label

/-- The structured XML envelope built for a context-processing source. -/
def ctxBlock (safeLabel content : String) : String :=
  "\n<context_source id=\"" ++ safeLabel ++ "\" type=\"context_processing_output\">\n"
    ++ content ++ "\n</context_source>\n"

/-- The project-definition metadata inheritance block of
`getUpstreamContext` (title, subtitle, appended instructions, word count,
language; provenance recorded for the title only, as in the source). -/
def projectDefinitionMerge (srcCfg : Config) (cfg : Config)
    (prov : List (String × String)) : Config × List (String × String) :=
  let cfg := { cfg with Chapter_Title :=
    if srcCfg.Chapter_Title = "" then cfg.Chapter_Title else srcCfg.Chapter_Title }
  let prov :=
    if srcCfg.Chapter_Title = "" then prov
    else setKV prov "Chapter_Title" "Project Definition"
  let cfg := { cfg with Chapter_Subtitle :=
    if srcCfg.Chapter_Subtitle = "" then cfg.Chapter_Subtitle else srcCfg.Chapter_Subtitle }
  let cfg := { cfg with Additional_Instructions :=
    if srcCfg.Additional_Instructions = "" then cfg.Additional_Instructions
    else if cfg.Additional_Instructions = "" then srcCfg.Additional_Instructions
    else cfg.Additional_Instructions ++ "\n\nGlobal Project Directives:\n"
          ++ srcCfg.Additional_Instructions }
  let cfg := { cfg with Target_Word_Count :=
    if srcCfg.Target_Word_Count = "" then cfg.Target_Word_Count else srcCfg.Target_Word_Count }
  let cfg := { cfg with Output_Language :=
    if srcCfg.Output_Language = "" then cfg.Output_Language else srcCfg.Output_Language }
  (cfg, prov)

/-- Intermediate result of merging one incoming edge. `usedLookup`
records whether the critique→synthesis branch performed its extra
`edges.find` lookup (instrumentation only). -/
structure EdgeMergeOut where
  cfg : Config
  prov : List (String × String)
  sb : String
  bib : String
  usedLookup : Bool

/-- The per-edge merge body of `getUpstreamContext` after the source node
and its execution state have been found and its produced content
computed: the type-directed if/else chains of the source, in order. -/
def mergeFromSource (nodes : List WorkflowNode) (edges : List WorkflowEdge)
    (tType : TaskType) (sourceNode : WorkflowNode) (contentToUse : String)
    (states : List (String × NodeExecutionState)) (cfg : Config)
    (prov : List (String × String)) (sb bib : String) : EdgeMergeOut :=
  -- PROJECT DEFINITION / CONTEXT PROCESSING / standard bibliography chain
  let step1 : Config × List (String × String) × String × String :=
    if sourceNode.type = .PROJECT_DEFINITION then
      let r := projectDefinitionMerge sourceNode.config cfg prov
      (r.1, r.2, sb, bib)
    else if sourceNode.type = .CONTEXT_PROCESSING then
      let label := if sourceNode.label = "" then "Context_Batch" else sourceNode.label
      let block := ctxBlock (collapseWs label) contentToUse
      (cfg,
       setKV (setKV prov "Core_Bibliography" "Context Library") "Source_B_Content" "Context Library",
       sb ++ block, bib ++ block)
    else if sourceNode.config.Core_Bibliography ≠ "" ∧ cfg.Core_Bibliography = "" then
      if strContains bib "context_source" then (cfg, prov, sb, bib)
      else ({ cfg with Core_Bibliography := sourceNode.config.Core_Bibliography },
            setKV prov "Core_Bibliography" (labelOrType sourceNode), sb, bib)
    else (cfg, prov, sb, bib)
  let cfg := step1.1
  let prov := step1.2.1
  let sb := step1.2.2.1
  let bib := step1.2.2.2
  -- general fallback inheritance for non-project sources
  let step2 : Config × List (String × String) :=
    if sourceNode.type ≠ .PROJECT_DEFINITION then
      let r :=
        if cfg.Chapter_Title = "" ∧ sourceNode.config.Chapter_Title ≠ "" then
          ({ cfg with Chapter_Title := sourceNode.config.Chapter_Title },
           setKV prov "Chapter_Title" (labelOrType sourceNode))
        else (cfg, prov)
      if r.1.Chapter_Subtitle = "" ∧ sourceNode.config.Chapter_Subtitle ≠ "" then
        ({ r.1 with Chapter_Subtitle := sourceNode.config.Chapter_Subtitle }, r.2)
      else r
    else (cfg, prov)
  let cfg := step2.1
  let prov := step2.2
  -- outline inheritance for context-processing targets
  let step3 : Config × List (String × String) :=
    if tType = .CONTEXT_PROCESSING ∧ cfg.Chapter_Outline = "" ∧ contentToUse ≠ ""
        ∧ sourceNode.type = .OUTLINE_GENERATION then
      ({ cfg with Chapter_Outline := contentToUse },
       setKV prov "Chapter_Outline" (labelOrType sourceNode))
    else (cfg, prov)
  let cfg := step3.1
  let prov := step3.2
  if contentToUse = "" then ⟨cfg, prov, sb, bib, false⟩
  else if sourceNode.type = .OUTLINE_GENERATION ∧ tType = .CHAPTER_GENERATION then
    ⟨{ cfg with Chapter_Outline := contentToUse },
     setKV prov "Chapter_Outline" (labelOrType sourceNode), sb, bib, false⟩
  else if tType = .RED_TEAM_REVIEW ∨ tType = .CITATION_VERIFICATION then
    ⟨{ cfg with Draft_Chapter_Text := contentToUse },
     setKV prov "Draft_Chapter_Text" (labelOrType sourceNode), sb, bib, false⟩
  else if sourceNode.type = .RED_TEAM_REVIEW ∧ tType = .FINAL_SYNTHESIS then
    let cfg := { cfg with Red_Team_Review_Text := contentToUse }
    let prov := setKV prov "Red_Team_Review_Text" (labelOrType sourceNode)
    match edges.find? (fun e => e.target == sourceNode.id) with
    | some draftEdge =>
      match lookupState states draftEdge.source with
      | some draftState =>
        let draftText := joinNN (draftState.documentSections.map activeContent)
        let srcName :=
          match nodes.find? (fun n => n.id == draftEdge.source) with
          | some dn => labelOrType dn
          | none => "Upstream Draft"
        ⟨{ cfg with Draft_Chapter_Text := draftText },
         setKV prov "Draft_Chapter_Text" srcName, sb, bib, true⟩
      | none => ⟨cfg, prov, sb, bib, true⟩
    | none => ⟨cfg, prov, sb, bib, true⟩
  else if tType = .ACADEMIC_NOTE_GENERATION ∧ sourceNode.type ≠ .PROJECT_DEFINITION then
    let separator := if sb = "" then "" else "\n\n"
    ⟨cfg, setKV prov "Source_B_Content" (labelOrType sourceNode),
     sb ++ separator ++ "--- Input from " ++ taskTypeName sourceNode.type ++ " ---\n"
        ++ contentToUse,
     bib, false⟩
  else ⟨cfg, prov, sb, bib, false⟩

/-- Accumulator of the `incomingEdges.forEach` loop, together with the
threaded execution-state map and the instrumentation counters. -/
structure ResolveAcc where
  cfg : Config
  prov : List (String × String)
  sb : String
  bib : String
  states : List (String × NodeExecutionState)
  steps : Nat
  extraLookups : Nat

/-- One iteration of the `incomingEdges.forEach` loop: look up the source
node and its execution state (skip the edge if either is missing), sort
the source's sections in place (`Array.prototype.sort` mutates), compute
its produced content (sections first, chat fallback) and merge. -/
def processEdge (nodes : List WorkflowNode) (edges : List WorkflowEdge)
    (tType : TaskType) (acc : ResolveAcc) (edge : WorkflowEdge) : ResolveAcc :=
  match nodes.find? (fun n => n.id == edge.source), lookupState acc.states edge.source with
  | some sourceNode, some sourceState =>
    let sortedSecs := sortSections sourceState.documentSections
    let states' := setStateEntry acc.states edge.source
      { sourceState with documentSections := sortedSecs }
    let sourceText := joinNN (sortedSecs.map activeContent)
    let sourceChatContent :=
      joinNN ((sourceState.messages.filter
        (fun m => m.role == .assistant && !m.isHidden)).map (fun m => m.content))
    let contentToUse := if sourceText = "" then sourceChatContent else sourceText
    let out := mergeFromSource nodes edges tType sourceNode contentToUse states'
      acc.cfg acc.prov acc.sb acc.bib
    { cfg := out.cfg, prov := out.prov, sb := out.sb, bib := out.bib,
      states := states', steps := acc.steps + 1,
      extraLookups := acc.extraLookups + (if out.usedLookup then 1 else 0) }
  | _, _ => { acc with steps := acc.steps + 1 }

/-- Result of `getUpstreamContext`: the effective config and provenance
map returned by the source, the execution-state map after the in-place
sorts, and the instrumentation counters. -/
structure ResolveResult where
  effectiveConfig : Config
  upstreamSources : List (String × String)
  states : List (String × NodeExecutionState)
  steps : Nat
  extraLookups : Nat

/-- `getUpstreamContext` from the App component: a single pass over the
target's incoming edges, followed by applying the accumulated
`combinedSourceB` / `combinedBibliography` values when non-empty. -/
def getUpstreamContext (st : AppState) (node : WorkflowNode) : ResolveResult :=
  let incomingEdges := st.edges.filter (fun e => e.target == node.id)
  let acc0 : ResolveAcc :=
    ⟨node.config, [], node.config.Source_B_Content, node.config.Core_Bibliography,
     st.executionStates, 0, 0⟩
  let acc := incomingEdges.foldl (processEdge st.nodes st.edges node.type) acc0
  let cfg := { acc.cfg with
    Source_B_Content := if acc.sb = "" then acc.cfg.Source_B_Content else acc.sb,
    Core_Bibliography := if acc.bib = "" then acc.cfg.Core_Bibliography else acc.bib }
  ⟨cfg, acc.prov, acc.states, acc.steps, acc.extraLookups⟩

/-- The programmatic resolver surface: resolve a node by id against a
graph snapshot, returning the resolver output and the snapshot as left
behind by the call. -/
def resolveEffectiveConfig (st : AppState) (nodeId : String) :
    Option (Config × List (String × String)) × AppState :=
  match st.nodes.find? (fun n => n.id == nodeId) with
  | some node =>
    let r := getUpstreamContext st node
    (some (r.effectiveConfig, r.upstreamSources), { st with executionStates := r.states })
  | none => (none, st)

/-- `handleConnect`: reject an existing (source, target) pair, otherwise
append a new edge (the fresh uuid is passed in as `newId`). -/
def handleConnect (edges : List WorkflowEdge) (source target newId : String) :
    List WorkflowEdge :=
  if edges.any (fun e => e.source == source && e.target == target) then edges
  else edges ++ [⟨newId, source, target⟩]

/-- `handleDeleteNode`: drop the node, every incident edge and the node's
execution-state entry. -/
def handleDeleteNode (st : AppState) (id : String) : AppState where
  nodes := st.nodes.filter (fun n => !(n.id == id))
  edges := st.edges.filter (fun e => !(e.source == id) && !(e.target == id))
  executionStates := st.executionStates.filter (fun p => !(p.1 == id))

/-- `handleUpdateSection` (documentSections update): append a
`user-edited` version to the matching section and repoint
`activeVersionId` to it. -/
def handleUpdateSection (es : NodeExecutionState)
    (sectionId content newVersionId : String) (now : Nat) : NodeExecutionState :=
  { es with documentSections := es.documentSections.map (fun s =>
      if s.id = sectionId then
        { s with versions := s.versions ++ [⟨newVersionId, content, now, .userEdited⟩],
                 activeVersionId := newVersionId }
      else s) }

/-- `handleRevertVersion`: repoint the matching section's
`activeVersionId`, touching nothing else. -/
def handleRevertVersion (es : NodeExecutionState) (sectionId versionId : String) :
    NodeExecutionState :=
  { es with documentSections := es.documentSections.map (fun s =>
      if s.id = sectionId then { s with activeVersionId := versionId } else s) }

end UAW

namespace UAW

/-- The heavy-field stripping of the tier-3 save: every listed text field
longer than 500 characters is replaced by the sentinel marker, and the
file arrays are cleared. -/
def stripHeavyConfig (c : Config) : Config :=
  let clearHeavy : String → String := fun s =>
    if 500 < s.length then "[CONTENT_CLEARED_TO_SAVE_SPACE]" else s
  { c with
    Source_A_File := clearHeavy c.Source_A_File,
    Source_B_File := clearHeavy c.Source_B_File,
    Book_File := clearHeavy c.Book_File,
    Core_Bibliography := clearHeavy c.Core_Bibliography,
    Source_B_Content := clearHeavy c.Source_B_Content,
    Draft_Chapter_Text := clearHeavy c.Draft_Chapter_Text,
    Red_Team_Review_Text := clearHeavy c.Red_Team_Review_Text,
    Final_Draft_For_Review := clearHeavy c.Final_Draft_For_Review,
    Chapter_Outline := clearHeavy c.Chapter_Outline,
    Source_B_Files := [],
    Core_Bibliography_Files := [] }

/-- Tier 2 reduction: keep every execution-state key but reset each value
to the initial execution state. -/
def resetExecutionStates (m : List (String × NodeExecutionState)) :
    List (String × NodeExecutionState) :=
  m.map (fun p => (p.1, getInitialExecutionState))

/-- The tier-2 payload: same nodes and edges, execution states reset. -/
def tier2State (st : AppState) : AppState :=
  { st with executionStates := resetExecutionStates st.executionStates }

/-- The tier-3 payload: additionally strip heavy config content. -/
def tier3State (st : AppState) : AppState where
  nodes := st.nodes.map (fun n => { n with config := stripHeavyConfig n.config })
  edges := st.edges
  executionStates := resetExecutionStates st.executionStates

/-- `saveState` from the App component's debounced-save effect:
`writeOk` abstracts `localStorage.setItem` (`false` means the write
throws, e.g. quota exceeded); each tier is attempted only after the
previous tier's write throws, and `none` models the final unrecoverable
log. -/
def saveState (writeOk : AppState → Bool) (st : AppState) : Option AppState :=
  if writeOk st then some st
  else if writeOk (tier2State st) then some (tier2State st)
  else if writeOk (tier3State st) then some (tier3State st)
  else none

/-- Error thrown by the generation capability. -/
structure GenError where
  message : String
  deriving DecidableEq

/-- ASCII lowering of one character (JS `toLowerCase` on the ASCII
range, which covers every signature the heuristics look for). -/
def lowerChar (c : Char) : Char :=
  if 'A' ≤ c ∧ c ≤ 'Z' then Char.ofNat (c.toNat + 32) else c

/-- JS `message.toLowerCase()` (ASCII range). -/
def strToLower (s : String) : String := ⟨s.data.map lowerChar⟩

/-- `isRetryableError` from the Gemini service: case-insensitive
message-content heuristics for transient provider errors. -/
def isRetryableError (e : GenError) : Bool :=
  let m := strToLower e.message
  strContains m "503" || strContains m "unavailable" || strContains m "overloaded"
    || strContains m "rate limit"

/-- Observable outcome of `withRetry`: the value or propagated error, the
number of attempts performed, and the backoff delay (in ms) computed
before each retry. -/
structure RetryResult (α : Type) where
  result : Except GenError α
  attempts : Nat
  delays : List Nat

/-- The retry loop of `withRetry`. `fn i` is the outcome of the i-th call
of the wrapped capability (0-based); `jitter a` is the `Math.random() *
1000` draw for the delay computed when the failure counter reaches `a`.
The loop stops on success, on a non-retryable error, or when the failure
counter reaches `maxRetries`. -/
def withRetryGo (fn : Nat → Except GenError α) (jitter : Nat → Nat)
    (maxRetries initialDelay : Nat) (attempt : Nat) : RetryResult α :=
  match fn attempt with
  | .ok a => ⟨.ok a, attempt + 1, []⟩
  | .error e =>
    if h : maxRetries ≤ attempt + 1 ∨ isRetryableError e = false then
      ⟨.error e, attempt + 1, []⟩
    else
      let delay := initialDelay * 2 ^ attempt + jitter (attempt + 1)
      let r := withRetryGo fn jitter maxRetries initialDelay (attempt + 1)
      ⟨r.result, r.attempts, delay :: r.delays⟩
termination_by maxRetries - attempt
decreasing_by
  simp only [not_or, not_le] at h
  omega

/-- `withRetry` from the Gemini service (source defaults: `maxRetries =
3`, `initialDelay = 1000`). -/
def withRetry (fn : Nat → Except GenError α) (jitter : Nat → Nat)
    (maxRetries initialDelay : Nat) : RetryResult α :=
  withRetryGo fn jitter maxRetries initialDelay 0

end UAW

namespace UAW

/-! ### Test fixtures for concrete graph families -/

/-- A section holding a single active version with the given content. -/
def mkSec (sid : String) (ord : Int) (vid content : String) : ChapterSection :=
  ⟨sid, ord, "Section", [⟨vid, content, 0, .aiGenerated⟩], vid, none⟩

/-- An execution state holding just the given sections. -/
def mkES (secs : List ChapterSection) : NodeExecutionState :=
  { getInitialExecutionState with documentSections := secs }

/-- An unlabeled node. -/
def mkNode (nid : String) (ty : TaskType) (cfg : Config) : WorkflowNode :=
  ⟨nid, ty, ⟨0, 0⟩, cfg, "idle", ""⟩

/-- A labeled node. -/
def mkNodeL (nid : String) (ty : TaskType) (cfg : Config) (label : String) :
    WorkflowNode :=
  ⟨nid, ty, ⟨0, 0⟩, cfg, "idle", label⟩

/-- The four-node pipeline of the two-hop synthesis scenario:
outline → chapter (whose artifact is the draft `D`) → critique (whose
artifact is the review `R`) → synthesis (own config `synthCfg`). -/
def chainState (D R : String) (synthCfg : Config) : AppState where
  nodes :=
    [mkNode "outline" .OUTLINE_GENERATION (getInitialConfig .OUTLINE_GENERATION),
     mkNode "chapter" .CHAPTER_GENERATION (getInitialConfig .CHAPTER_GENERATION),
     mkNode "critique" .RED_TEAM_REVIEW (getInitialConfig .RED_TEAM_REVIEW),
     mkNode "synth" .FINAL_SYNTHESIS synthCfg]
  edges :=
    [⟨"e1", "outline", "chapter"⟩, ⟨"e2", "chapter", "critique"⟩,
     ⟨"e3", "critique", "synth"⟩]
  executionStates :=
    [("outline", getInitialExecutionState),
     ("chapter", mkES [mkSec "s1" 1 "v1" D]),
     ("critique", mkES [mkSec "s2" 1 "v2" R]),
     ("synth", getInitialExecutionState)]

/-- C1: in the outline → chapter (draft `D`) → critique (review `R`) →
synthesis chain, resolving the synthesis node (for any draft `D`, any
produced review `R` and any own config of the synthesis node) sets its
`Red_Team_Review_Text` to `R` and, through the one-hop-back lookup of the
critique node's own upstream edge, its `Draft_Chapter_Text` to `D` — not
to `R`. -/
theorem c1_two_hop_synthesis (D R : String) (synthCfg : Config) (hR : R ≠ "") :
    (getUpstreamContext (chainState D R synthCfg)
      (mkNode "synth" .FINAL_SYNTHESIS synthCfg)).effectiveConfig.Red_Team_Review_Text = R
    ∧ (getUpstreamContext (chainState D R synthCfg)
      (mkNode "synth" .FINAL_SYNTHESIS synthCfg)).effectiveConfig.Draft_Chapter_Text = D := by
  simp [getUpstreamContext, chainState, processEdge, mergeFromSource, mkNode, mkES, mkSec,
    getInitialConfig, getInitialExecutionState, lookupState, setStateEntry, sortSections,
    insertSec, activeContent, joinNN, labelOrType, taskTypeName, setKV, hR,
    List.filter, List.find?, strContains, listContains, listStartsWith, collapseWs]

/-- Witness for C1 at `D := "DRAFT"`, `R := "REVIEW"`. -/
theorem c1_two_hop_synthesis_witness :
    ("REVIEW" : String) ≠ ""
    ∧ (getUpstreamContext (chainState "DRAFT" "REVIEW" (getInitialConfig .FINAL_SYNTHESIS))
        (mkNode "synth" .FINAL_SYNTHESIS
          (getInitialConfig .FINAL_SYNTHESIS))).effectiveConfig.Red_Team_Review_Text = "REVIEW"
    ∧ (getUpstreamContext (chainState "DRAFT" "REVIEW" (getInitialConfig .FINAL_SYNTHESIS))
        (mkNode "synth" .FINAL_SYNTHESIS
          (getInitialConfig .FINAL_SYNTHESIS))).effectiveConfig.Draft_Chapter_Text = "DRAFT" := by
  refine ⟨by decide, ?_, ?_⟩
  · exact (c1_two_hop_synthesis "DRAFT" "REVIEW" (getInitialConfig .FINAL_SYNTHESIS)
      (by decide)).1
  · exact (c1_two_hop_synthesis "DRAFT" "REVIEW" (getInitialConfig .FINAL_SYNTHESIS)
      (by decide)).2

end UAW

namespace UAW

/-- A string append is empty only when both parts are. -/
theorem strAppend_eq_empty (a b : String) : a ++ b = "" ↔ a = "" ∧ b = "" := by
  simp [String.ext_iff, String.data_append]

/-- Two context-library (CONTEXT_PROCESSING) nodes labeled `l1`, `l2`,
with produced contents `X`, `Y`, both feeding one target of type `tt`
with own config `tgtCfg`. -/
def twoCtxState (tt : TaskType) (tgtCfg : Config) (l1 l2 X Y : String) : AppState where
  nodes :=
    [mkNodeL "ctx1" .CONTEXT_PROCESSING (getInitialConfig .CONTEXT_PROCESSING) l1,
     mkNodeL "ctx2" .CONTEXT_PROCESSING (getInitialConfig .CONTEXT_PROCESSING) l2,
     mkNode "tgt" tt tgtCfg]
  edges := [⟨"e1", "ctx1", "tgt"⟩, ⟨"e2", "ctx2", "tgt"⟩]
  executionStates :=
    [("ctx1", mkES [mkSec "s1" 1 "v1" X]),
     ("ctx2", mkES [mkSec "s2" 1 "v2" Y]),
     ("tgt", getInitialExecutionState)]

/-- C2: a target of any type fed by two context-library nodes with
distinguishable labels and produced contents `X` and `Y` resolves with
both its `Core_Bibliography` and its `Source_B_Content` holding `X` and
`Y`, each wrapped in its own identifying `<context_source id="...">`
envelope, appended in edge order — neither source overwrites the other
(for an academic-note target the `Source_B_Content` additionally carries
the labeled note inputs between the two envelopes, still preserving
both). -/
theorem c2_tagged_multi_source_merge (tt : TaskType) (tgtCfg : Config)
    (l1 l2 X Y : String) (hX : X ≠ "") (hY : Y ≠ "")
    (hl1 : l1 ≠ "") (hl2 : l2 ≠ "") (hids : collapseWs l1 ≠ collapseWs l2) :
    (getUpstreamContext (twoCtxState tt tgtCfg l1 l2 X Y)
        (mkNode "tgt" tt tgtCfg)).effectiveConfig.Core_Bibliography
      = (tgtCfg.Core_Bibliography ++ ctxBlock (collapseWs l1) X) ++ ctxBlock (collapseWs l2) Y
    ∧ (getUpstreamContext (twoCtxState tt tgtCfg l1 l2 X Y)
        (mkNode "tgt" tt tgtCfg)).effectiveConfig.Source_B_Content
      = (if tt = .ACADEMIC_NOTE_GENERATION then
          tgtCfg.Source_B_Content ++ ctxBlock (collapseWs l1) X
            ++ "\n\n" ++ "--- Input from " ++ taskTypeName .CONTEXT_PROCESSING ++ " ---\n" ++ X
            ++ ctxBlock (collapseWs l2) Y
            ++ "\n\n" ++ "--- Input from " ++ taskTypeName .CONTEXT_PROCESSING ++ " ---\n" ++ Y
         else tgtCfg.Source_B_Content ++ ctxBlock (collapseWs l1) X
            ++ ctxBlock (collapseWs l2) Y) := by
  cases tt <;>
    simp [getUpstreamContext, twoCtxState, processEdge, mergeFromSource, mkNode, mkNodeL,
      mkES, mkSec, getInitialConfig, getInitialExecutionState, lookupState, setStateEntry,
      sortSections, insertSec, activeContent, joinNN, labelOrType, taskTypeName, setKV,
      hX, hY, hl1, hl2, ctxBlock, strAppend_eq_empty, List.filter, List.find?]

end UAW

namespace UAW

/-- Witness for C2 at `X := "X"`, `Y := "Y"`, labels `"Src A"`, `"Src B"`,
chapter-generation target. -/
theorem c2_tagged_multi_source_merge_witness :
    (("X" : String) ≠ "" ∧ ("Y" : String) ≠ "" ∧ ("Src A" : String) ≠ ""
      ∧ ("Src B" : String) ≠ "" ∧ collapseWs "Src A" ≠ collapseWs "Src B")
    ∧ (getUpstreamContext
        (twoCtxState .CHAPTER_GENERATION (getInitialConfig .CHAPTER_GENERATION)
          "Src A" "Src B" "X" "Y")
        (mkNode "tgt" .CHAPTER_GENERATION
          (getInitialConfig .CHAPTER_GENERATION))).effectiveConfig.Core_Bibliography
      = ((getInitialConfig .CHAPTER_GENERATION).Core_Bibliography
          ++ ctxBlock (collapseWs "Src A") "X") ++ ctxBlock (collapseWs "Src B") "Y" := by
  refine ⟨⟨by decide, by decide, by decide, by decide, by decide⟩, ?_⟩
  exact (c2_tagged_multi_source_merge .CHAPTER_GENERATION
    (getInitialConfig .CHAPTER_GENERATION) "Src A" "Src B" "X" "Y"
    (by decide) (by decide) (by decide) (by decide) (by decide)).1

end UAW

namespace UAW

/-- A project-definition node (own config `pdCfg`) feeding one target
node of arbitrary type `tt` and own config `tgtCfg`. -/
def pdGraphState (pdCfg tgtCfg : Config) (tt : TaskType) : AppState where
  nodes := [mkNode "pd" .PROJECT_DEFINITION pdCfg, mkNode "tgt" tt tgtCfg]
  edges := [⟨"e1", "pd", "tgt"⟩]
  executionStates := [("pd", getInitialExecutionState), ("tgt", getInitialExecutionState)]

/-- C4: a target of any type fed by a project-definition node with
non-empty title, subtitle, instructions, word count and language resolves
with the project's title (its own title overwritten, not appended),
subtitle, word count and language, and with the project instructions
appended to its own non-empty instructions behind the
"Global Project Directives:" delimiter. -/
theorem c4_project_definition_metadata (pdCfg tgtCfg : Config) (tt : TaskType)
    (hT : pdCfg.Chapter_Title ≠ "") (hS : pdCfg.Chapter_Subtitle ≠ "")
    (hI1 : pdCfg.Additional_Instructions ≠ "")
    (hI2 : tgtCfg.Additional_Instructions ≠ "")
    (hW : pdCfg.Target_Word_Count ≠ "") (hL : pdCfg.Output_Language ≠ "") :
    (getUpstreamContext (pdGraphState pdCfg tgtCfg tt)
        (mkNode "tgt" tt tgtCfg)).effectiveConfig.Chapter_Title = pdCfg.Chapter_Title
    ∧ (getUpstreamContext (pdGraphState pdCfg tgtCfg tt)
        (mkNode "tgt" tt tgtCfg)).effectiveConfig.Chapter_Subtitle = pdCfg.Chapter_Subtitle
    ∧ (getUpstreamContext (pdGraphState pdCfg tgtCfg tt)
        (mkNode "tgt" tt tgtCfg)).effectiveConfig.Additional_Instructions
      = tgtCfg.Additional_Instructions ++ "\n\nGlobal Project Directives:\n"
          ++ pdCfg.Additional_Instructions
    ∧ (getUpstreamContext (pdGraphState pdCfg tgtCfg tt)
        (mkNode "tgt" tt tgtCfg)).effectiveConfig.Target_Word_Count = pdCfg.Target_Word_Count
    ∧ (getUpstreamContext (pdGraphState pdCfg tgtCfg tt)
        (mkNode "tgt" tt tgtCfg)).effectiveConfig.Output_Language = pdCfg.Output_Language := by
  cases tt <;>
    simp [getUpstreamContext, pdGraphState, processEdge, mergeFromSource,
      projectDefinitionMerge, mkNode, getInitialExecutionState, lookupState, setStateEntry,
      sortSections, activeContent, joinNN, setKV, labelOrType, taskTypeName,
      hT, hS, hI1, hI2, hW, hL, List.filter, List.find?]

end UAW

namespace UAW

/-- Project-definition config for the C4 witness. -/
def c4PdCfg : Config :=
  { getInitialConfig .PROJECT_DEFINITION with
    Chapter_Title := "T", Chapter_Subtitle := "S", Additional_Instructions := "I1",
    Target_Word_Count := "5000", Output_Language := "Greek" }

/-- Target config for the C4 witness. -/
def c4TgtCfg : Config :=
  { getInitialConfig .CHAPTER_GENERATION with Additional_Instructions := "I2" }

/-- Witness for C4 at title "T", instructions "I1" over own
instructions "I2", chapter-generation target. -/
theorem c4_project_definition_metadata_witness :
    (c4PdCfg.Chapter_Title ≠ "" ∧ c4PdCfg.Chapter_Subtitle ≠ ""
      ∧ c4PdCfg.Additional_Instructions ≠ "" ∧ c4TgtCfg.Additional_Instructions ≠ ""
      ∧ c4PdCfg.Target_Word_Count ≠ "" ∧ c4PdCfg.Output_Language ≠ "")
    ∧ (getUpstreamContext (pdGraphState c4PdCfg c4TgtCfg .CHAPTER_GENERATION)
        (mkNode "tgt" .CHAPTER_GENERATION c4TgtCfg)).effectiveConfig.Chapter_Title = "T"
    ∧ (getUpstreamContext (pdGraphState c4PdCfg c4TgtCfg .CHAPTER_GENERATION)
        (mkNode "tgt" .CHAPTER_GENERATION c4TgtCfg)).effectiveConfig.Additional_Instructions
      = "I2" ++ "\n\nGlobal Project Directives:\n" ++ "I1" := by
  refine ⟨⟨by decide, by decide, by decide, by decide, by decide, by decide⟩, ?_, ?_⟩
  · exact (c4_project_definition_metadata c4PdCfg c4TgtCfg .CHAPTER_GENERATION
      (by decide) (by decide) (by decide) (by decide) (by decide) (by decide)).1
  · exact (c4_project_definition_metadata c4PdCfg c4TgtCfg .CHAPTER_GENERATION
      (by decide) (by decide) (by decide) (by decide) (by decide) (by decide)).2.2.1

end UAW

namespace UAW

/-- No two edges share the same (source, target) pair. -/
def noDupPairs (es : List WorkflowEdge) : Prop :=
  es.Pairwise (fun a b => ¬(a.source = b.source ∧ a.target = b.target))

/-- `handleConnect` preserves pairwise-distinct (source, target) pairs. -/
theorem handleConnect_noDup (es : List WorkflowEdge) (s t i : String)
    (h : noDupPairs es) : noDupPairs (handleConnect es s t i) := by
  unfold handleConnect noDupPairs
  split
  · exact h
  · rename_i hany
    have hall : ∀ e ∈ es, ¬(e.source = s ∧ e.target = t) := by
      intro e he hc
      exact hany (List.any_eq_true.2 ⟨e, he, by simp [hc.1, hc.2]⟩)
    refine List.pairwise_append.2 ⟨h, List.pairwise_singleton _ _, ?_⟩
    intro a ha b hb
    simp only [List.mem_singleton] at hb
    subst hb
    intro hc
    exact hall a ha ⟨hc.1, hc.2⟩

/-- Folding any sequence of connect requests preserves pairwise-distinct
(source, target) pairs. -/
theorem foldConnect_noDup (reqs : List (String × String × String))
    (es : List WorkflowEdge) (h : noDupPairs es) :
    noDupPairs (reqs.foldl (fun es r => handleConnect es r.1 r.2.1 r.2.2) es) := by
  induction reqs generalizing es with
  | nil => exact h
  | cons r rs ih => exact ih _ (handleConnect_noDup es r.1 r.2.1 r.2.2 h)

/-- C5 counterexample: `handleConnect` does not reject self-loops — a
connect request with source = target = "a" on the empty edge set appends
a self-loop edge instead of leaving the edge set unchanged. -/
theorem c5_counterexample :
    handleConnect [] "a" "a" "e1" = [⟨"e1", "a", "a"⟩]
    ∧ (handleConnect [] "a" "a" "e1").any (fun e => e.source == e.target) = true := by
  constructor <;> decide

/-- C5 (amended): any sequence of connect requests preserves the
no-duplicate-(source, target)-pair invariant; a duplicate request leaves
the edge set unchanged; but a self-loop request whose pair is not already
present is accepted and appends the self-loop edge (self-loop prevention
lives in the canvas UI, not in `handleConnect`). -/
theorem c5_connect_invariants (es : List WorkflowEdge)
    (reqs : List (String × String × String)) (h : noDupPairs es) :
    noDupPairs (reqs.foldl (fun es r => handleConnect es r.1 r.2.1 r.2.2) es)
    ∧ (∀ s t i, es.any (fun e => e.source == s && e.target == t) = true →
        handleConnect es s t i = es)
    ∧ (∀ s i, es.any (fun e => e.source == s && e.target == s) = false →
        handleConnect es s s i = es ++ [⟨i, s, s⟩]) := by
  refine ⟨foldConnect_noDup reqs es h, ?_, ?_⟩
  · intro s t i hdup
    simp [handleConnect, hdup]
  · intro s i habs
    simp [handleConnect, habs]

/-- Witness for C5 (amended) from the empty edge set through a duplicate
request and a self-loop request. -/
theorem c5_connect_invariants_witness :
    noDupPairs ([] : List WorkflowEdge)
    ∧ noDupPairs ([("a", "b", "e1"), ("a", "b", "e2"), ("c", "c", "e3")].foldl
        (fun es (r : String × String × String) => handleConnect es r.1 r.2.1 r.2.2) []) := by
  refine ⟨List.Pairwise.nil, ?_⟩
  exact (c5_connect_invariants [] [("a", "b", "e1"), ("a", "b", "e2"), ("c", "c", "e3")]
    List.Pairwise.nil).1

end UAW

namespace UAW

/-- The per-section effect of one `handleUpdateSection` call on the
matching section, with the update given as (content, newVersionId, now). -/
def secApply (u : String × String × Nat) (s : ChapterSection) : ChapterSection :=
  { s with versions := s.versions ++ [⟨u.2.1, u.1, u.2.2, .userEdited⟩],
           activeVersionId := u.2.1 }

/-- A sequence of `handleUpdateSection` calls against one section id. -/
def applyUpdates (es : NodeExecutionState) (sectionId : String)
    (us : List (String × String × Nat)) : NodeExecutionState :=
  us.foldl (fun es u => handleUpdateSection es sectionId u.1 u.2.1 u.2.2) es

theorem applyUpdates_sections (es : NodeExecutionState) (sectionId : String)
    (us : List (String × String × Nat)) :
    (applyUpdates es sectionId us).documentSections
      = us.foldl
          (fun l u => l.map (fun s => if s.id = sectionId then secApply u s else s))
          es.documentSections := by
  induction us generalizing es with
  | nil => rfl
  | cons u us ih =>
    simpa [applyUpdates, List.foldl_cons] using
      ih (handleUpdateSection es sectionId u.1 u.2.1 u.2.2)

theorem secApply_id (u : String × String × Nat) (s : ChapterSection) :
    (secApply u s).id = s.id := rfl

theorem foldMap_sections (sectionId : String) (us : List (String × String × Nat))
    (l : List ChapterSection) :
    us.foldl (fun l u => l.map (fun s => if s.id = sectionId then secApply u s else s)) l
      = l.map (fun s => if s.id = sectionId
          then us.foldl (fun s u => secApply u s) s else s) := by
  induction us generalizing l with
  | nil => simp
  | cons u us ih =>
    rw [List.foldl_cons, ih, List.map_map]
    refine List.map_congr_left ?_
    intro s _
    by_cases hs : s.id = sectionId
    · simp [Function.comp, hs, secApply_id]
    · simp [Function.comp, hs]

theorem foldSec_len (us : List (String × String × Nat)) (s : ChapterSection) :
    (us.foldl (fun s u => secApply u s) s).versions.length
      = s.versions.length + us.length := by
  induction us generalizing s with
  | nil => simp
  | cons u us ih =>
    rw [List.foldl_cons, ih]
    simp [secApply]
    omega

theorem foldSec_id (us : List (String × String × Nat)) (s : ChapterSection) :
    (us.foldl (fun s u => secApply u s) s).id = s.id := by
  induction us generalizing s with
  | nil => rfl
  | cons u us ih => rw [List.foldl_cons, ih, secApply_id]

theorem foldSec_active (us : List (String × String × Nat)) (s : ChapterSection) :
    (us.foldl (fun s u => secApply u s) s).activeVersionId
      = ((us.getLast?).map (fun u => u.2.1)).getD s.activeVersionId := by
  induction us generalizing s with
  | nil => rfl
  | cons u us ih =>
    rw [List.foldl_cons, ih]
    cases us with
    | nil => simp [secApply]
    | cons u' us' =>
      simp [List.getLast?_cons_cons, List.getLast?_eq_getLast (u' :: us') (by simp)]

/-- C6: after `N` successive `handleUpdateSection` calls against a
section id, the matching sections' `versions` arrays have grown by
exactly `N` and their `activeVersionId` is the id of the most recently
appended version, while every other section is untouched; and
`handleRevertVersion` changes nothing but `activeVersionId` (erasing
`activeVersionId` on both sides yields equal section lists). -/
theorem c6_version_monotonicity (es : NodeExecutionState) (sectionId : String)
    (us : List (String × String × Nat)) (h : us ≠ []) (versionId : String) :
    ((applyUpdates es sectionId us).documentSections.map
        (fun s => (s.id, s.versions.length, s.activeVersionId)))
      = es.documentSections.map
          (fun s => if s.id = sectionId
            then (s.id, s.versions.length + us.length, (us.getLast h).2.1)
            else (s.id, s.versions.length, s.activeVersionId))
    ∧ ((handleRevertVersion es sectionId versionId).documentSections.map
        (fun s => { s with activeVersionId := "" }))
      = es.documentSections.map (fun s => { s with activeVersionId := "" }) := by
  constructor
  · rw [applyUpdates_sections, foldMap_sections, List.map_map]
    refine List.map_congr_left ?_
    intro s _
    by_cases hs : s.id = sectionId
    · simp only [Function.comp, hs, if_pos]
      rw [foldSec_id, foldSec_len, foldSec_active, List.getLast?_eq_getLast _ h]
      simp [hs]
    · simp [Function.comp, hs]
  · show ((es.documentSections.map _).map _) = _
    rw [List.map_map]
    refine List.map_congr_left ?_
    intro s _
    by_cases hs : s.id = sectionId <;> simp [hs]

/-- Witness for C6: two updates against a one-section state. -/
theorem c6_version_monotonicity_witness :
    ([("c1", "nv1", 1), ("c2", "nv2", 2)] : List (String × String × Nat)) ≠ []
    ∧ ((applyUpdates (mkES [mkSec "sec" 1 "v0" "orig"]) "sec"
          [("c1", "nv1", 1), ("c2", "nv2", 2)]).documentSections.map
        (fun s => (s.id, s.versions.length, s.activeVersionId)))
      = (mkES [mkSec "sec" 1 "v0" "orig"]).documentSections.map
          (fun s => if s.id = "sec"
            then (s.id, s.versions.length + 2, "nv2")
            else (s.id, s.versions.length, s.activeVersionId)) := by
  refine ⟨by decide, ?_⟩
  have := (c6_version_monotonicity (mkES [mkSec "sec" 1 "v0" "orig"]) "sec"
    [("c1", "nv1", 1), ("c2", "nv2", 2)] (by decide) "v0").1
  simpa using this

end UAW

namespace UAW

/-- Sections already in nondecreasing `order` (the invariant every
in-app operation maintains, since new sections get `order` = count + 1). -/
def sectionsSorted (l : List ChapterSection) : Prop :=
  l.Chain' (fun a b => a.order ≤ b.order)

instance (l : List ChapterSection) : Decidable (sectionsSorted l) :=
  inferInstanceAs (Decidable (l.Chain' (fun (a b : ChapterSection) => a.order ≤ b.order)))

theorem sortSections_eq_of_sorted (l : List ChapterSection)
    (h : sectionsSorted l) : sortSections l = l := by
  induction l with
  | nil => rfl
  | cons s ss ih =>
    cases ss with
    | nil => rfl
    | cons t ts =>
      rcases List.chain'_cons.1 h with ⟨hst, htail⟩
      show insertSec s (sortSections (t :: ts)) = s :: t :: ts
      rw [ih htail]
      unfold insertSec
      rw [if_neg (not_lt.2 hst)]

theorem lookupState_eq_some_mem (m : List (String × NodeExecutionState))
    (k : String) (v : NodeExecutionState) (h : lookupState m k = some v) :
    (k, v) ∈ m := by
  induction m with
  | nil => simp [lookupState] at h
  | cons p rest ih =>
    unfold lookupState at h
    by_cases hp : p.1 = k
    · rw [if_pos hp] at h
      have hv : v = p.2 := (Option.some.injEq _ _ ▸ h).symm
      have hkv : (k, v) = p := by rw [hv, ← hp]
      rw [hkv]
      exact List.mem_cons_self p rest
    · rw [if_neg hp] at h
      exact List.mem_cons_of_mem p (ih h)

theorem setStateEntry_self (m : List (String × NodeExecutionState))
    (k : String) (v : NodeExecutionState) (h : lookupState m k = some v) :
    setStateEntry m k v = m := by
  induction m with
  | nil => rfl
  | cons p rest ih =>
    unfold lookupState at h
    unfold setStateEntry
    by_cases hp : p.1 = k
    · rw [if_pos hp] at h
      have hv : v = p.2 := (Option.some.injEq _ _ ▸ h).symm
      rw [if_pos hp, hv, ← hp]
    · rw [if_neg hp] at h
      rw [if_neg hp, ih h]

theorem processEdge_states_of_sorted (nodes : List WorkflowNode)
    (edges : List WorkflowEdge) (tType : TaskType) (acc : ResolveAcc)
    (e : WorkflowEdge)
    (h : ∀ p ∈ acc.states, sectionsSorted p.2.documentSections) :
    (processEdge nodes edges tType acc e).states = acc.states := by
  unfold processEdge
  split
  · rename_i sourceNode sourceState hfind hlook
    show setStateEntry acc.states e.source
      { sourceState with documentSections := sortSections sourceState.documentSections }
        = acc.states
    have hmem : (e.source, sourceState) ∈ acc.states :=
      lookupState_eq_some_mem _ _ _ hlook
    have hsorted : sectionsSorted sourceState.documentSections := h _ hmem
    rw [sortSections_eq_of_sorted _ hsorted]
    exact setStateEntry_self _ _ _ hlook
  · rfl

theorem foldProcess_states_of_sorted (nodes : List WorkflowNode)
    (edges : List WorkflowEdge) (tType : TaskType) (l : List WorkflowEdge)
    (acc : ResolveAcc)
    (h : ∀ p ∈ acc.states, sectionsSorted p.2.documentSections) :
    (l.foldl (processEdge nodes edges tType) acc).states = acc.states := by
  induction l generalizing acc with
  | nil => rfl
  | cons e l ih =>
    rw [List.foldl_cons]
    have hse := processEdge_states_of_sorted nodes edges tType acc e h
    calc (l.foldl (processEdge nodes edges tType)
            (processEdge nodes edges tType acc e)).states
        = (processEdge nodes edges tType acc e).states := ih _ (by rw [hse]; exact h)
      _ = acc.states := hse

/-- A snapshot whose source node stores its sections out of `order`
(reachable through workflow-file loading). -/
def c3CounterState : AppState where
  nodes := [mkNode "src" .OUTLINE_GENERATION (getInitialConfig .OUTLINE_GENERATION),
            mkNode "tgt" .CHAPTER_GENERATION (getInitialConfig .CHAPTER_GENERATION)]
  edges := [⟨"e1", "src", "tgt"⟩]
  executionStates :=
    [("src", mkES [mkSec "s2" 2 "v2" "B", mkSec "s1" 1 "v1" "A"]),
     ("tgt", getInitialExecutionState)]

/-- C3 counterexample: resolving a node is not mutation-free — the
resolver's in-place `Array.prototype.sort` reorders the upstream source's
stored `documentSections`, so the graph state after the call differs from
the snapshot it was given. -/
theorem c3_counterexample :
    (resolveEffectiveConfig c3CounterState "tgt").2 ≠ c3CounterState := by
  decide

/-- C3 (amended): `resolveEffectiveConfig` never touches the node list
(and so no node's stored config) or the edge list; and on any snapshot
whose execution states keep their sections sorted by `order` — the
invariant all in-app operations maintain — it leaves the whole graph
state unchanged, so calling it twice returns structurally equal effective
configs and provenance maps. Its only side effect, on other snapshots, is
the in-place re-sorting of upstream sources' `documentSections`. -/
theorem c3_resolver_pure_on_sorted (st : AppState) (nodeId : String) :
    (resolveEffectiveConfig st nodeId).2.nodes = st.nodes
    ∧ (resolveEffectiveConfig st nodeId).2.edges = st.edges
    ∧ ((∀ p ∈ st.executionStates, sectionsSorted p.2.documentSections) →
        (resolveEffectiveConfig st nodeId).2 = st
        ∧ resolveEffectiveConfig ((resolveEffectiveConfig st nodeId).2) nodeId
            = resolveEffectiveConfig st nodeId) := by
  refine ⟨?_, ?_, fun hsorted => ?_⟩
  · unfold resolveEffectiveConfig
    split <;> rfl
  · unfold resolveEffectiveConfig
    split <;> rfl
  · have h2 : (resolveEffectiveConfig st nodeId).2 = st := by
      unfold resolveEffectiveConfig
      split
      · rename_i node hfind
        show { st with executionStates := (getUpstreamContext st node).states } = st
        have hst : (getUpstreamContext st node).states = st.executionStates := by
          unfold getUpstreamContext
          exact foldProcess_states_of_sorted st.nodes st.edges node.type _ _ hsorted
        rw [hst]
      · rfl
    exact ⟨h2, by rw [h2]⟩

/-- Witness for C3 (amended) on a sorted two-node snapshot. -/
theorem c3_resolver_pure_on_sorted_witness :
    (∀ p ∈ (chainState "D" "R" (getInitialConfig .FINAL_SYNTHESIS)).executionStates,
      sectionsSorted p.2.documentSections)
    ∧ (resolveEffectiveConfig (chainState "D" "R" (getInitialConfig .FINAL_SYNTHESIS))
        "synth").2 = chainState "D" "R" (getInitialConfig .FINAL_SYNTHESIS) := by
  have hs : ∀ p ∈ (chainState "D" "R"
      (getInitialConfig .FINAL_SYNTHESIS)).executionStates,
      sectionsSorted p.2.documentSections := by
    simp [chainState, sectionsSorted, mkES, mkSec, getInitialExecutionState]
  refine ⟨hs, ?_⟩
  exact ((c3_resolver_pure_on_sorted
    (chainState "D" "R" (getInitialConfig .FINAL_SYNTHESIS)) "synth").2.2 hs).1

end UAW

namespace UAW

/-- C7: with the source's `maxRetries = 3`, `initialDelay = 1000`: a
capability failing twice with transient-signature errors and then
succeeding is attempted exactly 3 times and returns the success, with the
two inter-retry delays following the jittered exponential formula
`1000·2^(attempt−1) + jitter`; a capability failing with a non-transient
error is attempted exactly once and the error propagates; a capability
failing transiently every time stops at the 3-attempt cap and propagates
the error. -/
theorem c7_retry_boundary (α : Type) (a : α) (e1 e2 ef : GenError)
    (jitter : Nat → Nat)
    (h1 : isRetryableError e1 = true) (h2 : isRetryableError e2 = true)
    (hf : isRetryableError ef = false) :
    withRetry (fun i => if i = 0 then .error e1 else if i = 1 then .error e2 else .ok a)
        jitter 3 1000
      = ⟨.ok a, 3, [1000 * 2 ^ 0 + jitter 1, 1000 * 2 ^ 1 + jitter 2]⟩
    ∧ withRetry (fun _ => (.error ef : Except GenError α)) jitter 3 1000
      = ⟨.error ef, 1, []⟩
    ∧ withRetry (fun _ => (.error e1 : Except GenError α)) jitter 3 1000
      = ⟨.error e1, 3, [1000 * 2 ^ 0 + jitter 1, 1000 * 2 ^ 1 + jitter 2]⟩ := by
  refine ⟨?_, ?_, ?_⟩
  · rw [withRetry, withRetryGo, withRetryGo, withRetryGo]
    simp [h1, h2]
  · rw [withRetry, withRetryGo]
    simp [hf]
  · rw [withRetry, withRetryGo, withRetryGo, withRetryGo]
    simp [h1]

/-- Witness for C7 with concrete transient ("503 Service Unavailable",
"model overloaded") and fatal ("invalid API key") error messages and zero
jitter. -/
theorem c7_retry_boundary_witness :
    (isRetryableError ⟨"503 Service Unavailable"⟩ = true
      ∧ isRetryableError ⟨"model overloaded"⟩ = true
      ∧ isRetryableError ⟨"invalid API key"⟩ = false)
    ∧ withRetry
        (fun i => if i = 0 then .error ⟨"503 Service Unavailable"⟩
          else if i = 1 then .error ⟨"model overloaded"⟩ else .ok (0 : Nat))
        (fun _ => 0) 3 1000
      = ⟨.ok 0, 3, [1000 * 2 ^ 0 + 0, 1000 * 2 ^ 1 + 0]⟩
    ∧ withRetry (fun _ => (.error ⟨"invalid API key"⟩ : Except GenError Nat))
        (fun _ => 0) 3 1000
      = ⟨.error ⟨"invalid API key"⟩, 1, []⟩ := by
  refine ⟨⟨by decide, by decide, by decide⟩, ?_, ?_⟩
  · exact (c7_retry_boundary Nat 0 ⟨"503 Service Unavailable"⟩ ⟨"model overloaded"⟩
      ⟨"invalid API key"⟩ (fun _ => 0) (by decide) (by decide) (by decide)).1
  · exact (c7_retry_boundary Nat 0 ⟨"503 Service Unavailable"⟩ ⟨"model overloaded"⟩
      ⟨"invalid API key"⟩ (fun _ => 0) (by decide) (by decide) (by decide)).2.1

end UAW

namespace UAW

/-- C8: the tier-1 full save is attempted first and returned when the
write succeeds; only when it throws is tier 2 attempted, which persists
the same nodes (configs intact) and edges with every execution state
reset to the empty initial state; only when tier 2 also throws is tier 3
attempted, whose nodes additionally carry stripped configs with cleared
file arrays. In particular a state that fails tier 1 but fits at tier 2
persists via tier 2 with topology and configs intact and all execution
states empty. -/
theorem c8_degradation_tiers (writeOk : AppState → Bool) (st : AppState) :
    (writeOk st = true → saveState writeOk st = some st)
    ∧ (writeOk st = false → writeOk (tier2State st) = true →
        saveState writeOk st = some (tier2State st)
        ∧ (tier2State st).nodes = st.nodes
        ∧ (tier2State st).edges = st.edges
        ∧ ∀ p ∈ (tier2State st).executionStates, p.2 = getInitialExecutionState)
    ∧ (writeOk st = false → writeOk (tier2State st) = false →
        saveState writeOk st
          = (if writeOk (tier3State st) then some (tier3State st) else none)
        ∧ ∀ n ∈ (tier3State st).nodes,
            n.config.Source_B_Files = [] ∧ n.config.Core_Bibliography_Files = []) := by
  refine ⟨fun h1 => ?_, fun h1 h2 => ⟨?_, rfl, rfl, ?_⟩, fun h1 h2 => ⟨?_, ?_⟩⟩
  · simp [saveState, h1]
  · simp [saveState, h1, h2]
  · intro p hp
    rcases List.mem_map.1 hp with ⟨q, _, hq⟩
    rw [← hq]
  · simp [saveState, h1, h2]
  · intro n hn
    rcases List.mem_map.1 hn with ⟨m, _, hm⟩
    rw [← hm]
    exact ⟨rfl, rfl⟩

/-- A one-node state with a non-empty message log, for the C8 witness. -/
def c8State : AppState where
  nodes := [mkNode "n1" .OUTLINE_GENERATION (getInitialConfig .OUTLINE_GENERATION)]
  edges := []
  executionStates :=
    [("n1", { getInitialExecutionState with
        messages := [⟨"m1", .assistant, "hello", false⟩] })]

/-- A write predicate that only accepts payloads whose execution states
are all empty (a quota mock failing on the chat history). -/
def c8WriteOk (st : AppState) : Bool :=
  st.executionStates.all (fun p => p.2 == getInitialExecutionState)

/-- Witness for C8: `c8State` fails tier 1 under `c8WriteOk` and persists
via tier 2. -/
theorem c8_degradation_tiers_witness :
    (c8WriteOk c8State = false ∧ c8WriteOk (tier2State c8State) = true)
    ∧ saveState c8WriteOk c8State = some (tier2State c8State)
    ∧ ∀ p ∈ (tier2State c8State).executionStates, p.2 = getInitialExecutionState := by
  refine ⟨⟨by decide, by decide⟩, ?_, ?_⟩
  · exact ((c8_degradation_tiers c8WriteOk c8State).2.1 (by decide) (by decide)).1
  · exact ((c8_degradation_tiers c8WriteOk c8State).2.1 (by decide) (by decide)).2.2.2

end UAW

namespace UAW

theorem mem_deleteNode_edges (st : AppState) (X : String) (e : WorkflowEdge) :
    e ∈ (handleDeleteNode st X).edges ↔ e ∈ st.edges ∧ e.source ≠ X ∧ e.target ≠ X := by
  simp [handleDeleteNode, List.mem_filter, and_assoc]

theorem mem_deleteNode_nodes (st : AppState) (X : String) (n : WorkflowNode) :
    n ∈ (handleDeleteNode st X).nodes ↔ n ∈ st.nodes ∧ n.id ≠ X := by
  simp [handleDeleteNode, List.mem_filter]

theorem lookupState_filter_ne (m : List (String × NodeExecutionState)) (X k : String) :
    lookupState (m.filter (fun p => !(p.1 == X))) k
      = if k = X then none else lookupState m k := by
  induction m with
  | nil => simp [lookupState]
  | cons p rest ih =>
    by_cases hpX : p.1 = X
    · by_cases hk : k = X
      · subst hk
        simp [List.filter_cons, lookupState, hpX, ih]
      · have hXk : ¬(X = k) := fun h => hk h.symm
        simp [List.filter_cons, lookupState, hpX, hk, hXk, ih]
    · by_cases hpk : p.1 = k
      · have hk : ¬(k = X) := by rw [← hpk]; exact hpX
        simp [List.filter_cons, lookupState, hpX, hpk, hk]
      · simp [List.filter_cons, lookupState, hpX, hpk, ih]

/-- C9: `handleDeleteNode X` keeps exactly the non-`X` nodes, the edges
not incident to `X` and the execution states of keys other than `X`,
all unchanged; `getUpstreamContext` silently skips any edge whose source
node or source execution state is missing; and a formerly-downstream node
whose every incoming edge came from the deleted `X` resolves afterwards
to its own baseline config with an empty provenance map. -/
theorem c9_cascade_delete (st : AppState) (X : String) :
    (∀ e, e ∈ (handleDeleteNode st X).edges
        ↔ e ∈ st.edges ∧ e.source ≠ X ∧ e.target ≠ X)
    ∧ (∀ n, n ∈ (handleDeleteNode st X).nodes ↔ n ∈ st.nodes ∧ n.id ≠ X)
    ∧ (∀ k, lookupState (handleDeleteNode st X).executionStates k
        = if k = X then none else lookupState st.executionStates k)
    ∧ (∀ (nodes : List WorkflowNode) (edges : List WorkflowEdge) (tt : TaskType)
        (acc : ResolveAcc) (e : WorkflowEdge),
        (nodes.find? (fun n => n.id == e.source) = none
          ∨ lookupState acc.states e.source = none) →
        processEdge nodes edges tt acc e = { acc with steps := acc.steps + 1 })
    ∧ (∀ Y : WorkflowNode, (∀ e ∈ st.edges, e.target = Y.id → e.source = X) →
        getUpstreamContext (handleDeleteNode st X) Y
          = ⟨Y.config, [], (handleDeleteNode st X).executionStates, 0, 0⟩) := by
  refine ⟨mem_deleteNode_edges st X, mem_deleteNode_nodes st X,
    fun k => lookupState_filter_ne st.executionStates X k, ?_, ?_⟩
  · intro nodes edges tt acc e h
    rcases h with hf | hl
    · rcases hlook : lookupState acc.states e.source with _ | v <;>
        simp [processEdge, hf, hlook]
    · rcases hfind : nodes.find? (fun n => n.id == e.source) with _ | sn <;>
        simp [processEdge, hfind, hl]
  · intro Y hY
    have hinc : (handleDeleteNode st X).edges.filter (fun e => e.target == Y.id) = [] := by
      rw [List.filter_eq_nil_iff]
      intro e he
      rcases (mem_deleteNode_edges st X e).1 he with ⟨hmem, hsrc, _⟩
      simp only [beq_iff_eq]
      exact fun htgt => hsrc (hY e hmem htgt)
    simp [getUpstreamContext, hinc]

/-- A two-node graph for the C9 witness: "a" feeds "b". -/
def c9State : AppState where
  nodes := [mkNode "a" .OUTLINE_GENERATION (getInitialConfig .OUTLINE_GENERATION),
            mkNode "b" .CHAPTER_GENERATION (getInitialConfig .CHAPTER_GENERATION)]
  edges := [⟨"e1", "a", "b"⟩]
  executionStates :=
    [("a", mkES [mkSec "s1" 1 "v1" "OUTLINE"]), ("b", getInitialExecutionState)]

/-- Witness for C9: deleting "a" out of `c9State` makes "b" resolve to
its own baseline config. -/
theorem c9_cascade_delete_witness :
    (∀ e ∈ c9State.edges, e.target = "b" →  e.source = "a")
    ∧ getUpstreamContext (handleDeleteNode c9State "a")
        (mkNode "b" .CHAPTER_GENERATION (getInitialConfig .CHAPTER_GENERATION))
      = ⟨getInitialConfig .CHAPTER_GENERATION, [],
         (handleDeleteNode c9State "a").executionStates, 0, 0⟩ := by
  refine ⟨by decide, ?_⟩
  exact (c9_cascade_delete c9State "a").2.2.2.2
    (mkNode "b" .CHAPTER_GENERATION (getInitialConfig .CHAPTER_GENERATION)) (by decide)

end UAW

namespace UAW

theorem processEdge_steps (nodes : List WorkflowNode) (edges : List WorkflowEdge)
    (tType : TaskType) (acc : ResolveAcc) (e : WorkflowEdge) :
    (processEdge nodes edges tType acc e).steps = acc.steps + 1 := by
  unfold processEdge
  split <;> rfl

theorem processEdge_extra (nodes : List WorkflowNode) (edges : List WorkflowEdge)
    (tType : TaskType) (acc : ResolveAcc) (e : WorkflowEdge) :
    (processEdge nodes edges tType acc e).extraLookups ≤ acc.extraLookups + 1 := by
  have aux : ∀ (n : Nat) (b : Bool), n + (if b then 1 else 0) ≤ n + 1 := by
    intro n b
    cases b <;> simp
  unfold processEdge
  split
  · exact aux _ _
  · exact Nat.le_succ _

theorem foldProcess_steps (nodes : List WorkflowNode) (edges : List WorkflowEdge)
    (tType : TaskType) (l : List WorkflowEdge) (acc : ResolveAcc) :
    (l.foldl (processEdge nodes edges tType) acc).steps = acc.steps + l.length := by
  induction l generalizing acc with
  | nil => rfl
  | cons e l ih =>
    rw [List.foldl_cons, ih, processEdge_steps]
    simp [Nat.add_assoc, Nat.add_comm 1 l.length]

theorem foldProcess_extra (nodes : List WorkflowNode) (edges : List WorkflowEdge)
    (tType : TaskType) (l : List WorkflowEdge) (acc : ResolveAcc) :
    (l.foldl (processEdge nodes edges tType) acc).extraLookups
      ≤ acc.extraLookups + l.length := by
  induction l generalizing acc with
  | nil => exact Nat.le_refl _
  | cons e l ih =>
    rw [List.foldl_cons]
    have h1 := ih (processEdge nodes edges tType acc e)
    have h2 := processEdge_extra nodes edges tType acc e
    simp only [List.length_cons]
    omega

/-- C10: `getUpstreamContext` is a single non-recursive pass — on every
finite graph snapshot (cycles included, since nothing here depends on
acyclicity) it performs exactly one iteration per edge entering the
target node, plus at most one extra edge lookup per iteration (the
critique→synthesis back-edge lookup), and never recurses into further
upstream ancestors. -/
theorem c10_single_pass_termination (st : AppState) (node : WorkflowNode) :
    (getUpstreamContext st node).steps
      = (st.edges.filter (fun e => e.target == node.id)).length
    ∧ (getUpstreamContext st node).extraLookups ≤ (getUpstreamContext st node).steps := by
  constructor
  · simp only [getUpstreamContext]
    rw [foldProcess_steps]
    simp
  · simp only [getUpstreamContext]
    rw [foldProcess_steps]
    have h := foldProcess_extra st.nodes st.edges node.type
      (st.edges.filter (fun e => e.target == node.id))
      ⟨node.config, [], node.config.Source_B_Content, node.config.Core_Bibliography,
       st.executionStates, 0, 0⟩
    simp only [ResolveAcc.extraLookups, ResolveAcc.steps] at h ⊢
    omega

end UAW
